import Mathlib

/-!
# PlaneAge registry read path and refresh pipeline: a shallow embedding

This development embeds the registry lookup, CSV tokenization, schema
detection, join resolution, refresh swap and request-handling logic of the
PlaneAge repository (`server.js`, its `part_006` variant, and
`scripts/refresh-faa.js`) into Lean and proves the specified properties.

Strings are modelled with Lean `String`/`List Char`.  JavaScript's
`toUpperCase` is modelled as ASCII uppercasing (`Char.toUpper`), which agrees
with JavaScript on the character set the registry uses; `trim` and the regex
class `\s` are modelled by the ECMAScript WhiteSpace/LineTerminator set.
Streams are modelled by the list of lines they deliver, plus how they end
(normal end of file, `ENOENT` at open, or an I/O error after the delivered
lines).  Promise results are `Except` values: `.error` is a rejection.
-/

/-- ECMAScript WhiteSpace or LineTerminator code points (the set stripped by
`String.prototype.trim` and matched by `\s`).  Note it includes U+FEFF. -/
def isJsWhitespace (c : Char) : Bool :=
  c = ' ' || c = '\t' || c = '\n' || c = '\r' ||
  c = '\x0b' || c = '\x0c' || c = ' ' ||
  c = (Char.ofNat 0x1680) ||
  (0x2000 ≤ c.toNat && c.toNat ≤ 0x200a) ||
  c = (Char.ofNat 0x2028) || c = (Char.ofNat 0x2029) ||
  c = (Char.ofNat 0x202f) || c = (Char.ofNat 0x205f) ||
  c = (Char.ofNat 0x3000) || c = (Char.ofNat 0xfeff)

/-- JavaScript `String.prototype.trim`. -/
def jsTrim (s : String) : String :=
  ⟨((s.data.dropWhile isJsWhitespace).reverse.dropWhile isJsWhitespace).reverse⟩

/-- JavaScript `String.prototype.toUpperCase`, restricted to the ASCII
uppercasing this development models. -/
def jsToUpper (s : String) : String :=
  ⟨s.data.map Char.toUpper⟩

/-- `stripLeadingBom` from `server.js`: drop one leading U+FEFF. -/
def stripLeadingBom (s : String) : String :=
  match s.data with
  | c :: rest => if c.toNat = 0xfeff then ⟨rest⟩ else s
  | [] => s

/-- `stripAllQuotes` from `server.js`: remove every `"` character (with the
source's fast path when none is present). -/
def stripAllQuotes (s : String) : String :=
  if s.data.contains '"' then ⟨s.data.filter (fun c => c ≠ '"')⟩ else s

/-- `toUpperIfNeeded` from `server.js`: uppercase only when an ASCII
lowercase letter is present. -/
def toUpperIfNeeded (s : String) : String :=
  if s.data.any (fun c => 97 ≤ c.toNat && c.toNat ≤ 122) then jsToUpper s else s

/-- `normalizeNNumberField` from `server.js`: BOM-strip, quote-strip, trim,
uppercase. -/
def normalizeNNumberField (s : String) : String :=
  toUpperIfNeeded (jsTrim (stripAllQuotes (stripLeadingBom s)))

/-- Helper for `readFirstCsvField`'s quoted branch. -/
def readFirstQuotedAux : List Char → List Char → Bool → List Char
  | [], field, _ => field
  | '"' :: '"' :: rest, field, true => readFirstQuotedAux rest (field ++ ['"']) true
  | '"' :: rest, field, true => readFirstQuotedAux rest field false
  | c :: rest, field, true => readFirstQuotedAux rest (field ++ [c]) true
  | ',' :: _, field, false => field
  | _ :: rest, field, false => readFirstQuotedAux rest field false

/-- `readFirstCsvField` from `server.js`: the identifier fast path that reads
only up to the first unquoted comma. -/
def readFirstCsvField (line : String) : String :=
  match line.data with
  | [] => ""
  | c :: rest =>
    if c = '"' then ⟨readFirstQuotedAux rest [] true⟩
    else ⟨(c :: rest).takeWhile (fun ch => ch ≠ ',')⟩

/-- Loop of `parseCsvLine` from `server.js`: full tokenization of one CSV
line with quoted fields and doubled-quote escapes. -/
def parseCsvLineAux : List Char → Bool → List Char → List (List Char)
  | [], _, field => [field]
  | '"' :: '"' :: rest, true, field => parseCsvLineAux rest true (field ++ ['"'])
  | '"' :: rest, true, field => parseCsvLineAux rest false field
  | c :: rest, true, field => parseCsvLineAux rest true (field ++ [c])
  | '"' :: rest, false, field => parseCsvLineAux rest true field
  | ',' :: rest, false, field => field :: parseCsvLineAux rest false []
  | c :: rest, false, field => parseCsvLineAux rest false (field ++ [c])

/-- `parseCsvLine` from `server.js`. -/
def parseCsvLine (line : String) : List String :=
  (parseCsvLineAux line.data false []).map (fun f => ⟨f⟩)

/-- The structure built by `makeWantedCsvIndices` in `server.js`: the sorted
deduplicated wanted indices and the highest one (`-1` when none). -/
structure WantedCsvIndices where
  indices : List Nat
  max : Int
  deriving Repr, DecidableEq

/-- `makeWantedCsvIndices` from `server.js` (the `Number.isFinite (n) && n >= 0`
filter is the identity on `Nat` inputs; the JS `Set` is represented by
membership in the deduplicated ascending-sorted list). -/
def makeWantedCsvIndices (idxs : List Nat) : WantedCsvIndices :=
  let unique := (idxs.dedup).insertionSort (· ≤ ·)
  { indices := unique
    max := match unique.getLast? with
           | some n => (n : Int)
           | none => -1 }

/-- Loop of `parseCsvFieldsAt` from `server.js`.  The JS `field` variable is
`null` when the current column is not wanted; this is the `Option` state
(`none` = not collecting).  Emission order is by field index, so the JS `Map`
is represented by the association list of emitted pairs. -/
def parseCsvFieldsAtAux (w : WantedCsvIndices) :
    List Char → Nat → Bool → Option (List Char) → List (Nat × List Char)
  | [], idx, _, field =>
    match field with
    | some f => [(idx, f)]
    | none => []
  | '"' :: '"' :: rest, idx, true, field =>
    parseCsvFieldsAtAux w rest idx true (field.map (· ++ ['"']))
  | '"' :: rest, idx, true, field => parseCsvFieldsAtAux w rest idx false field
  | c :: rest, idx, true, field =>
    parseCsvFieldsAtAux w rest idx true (field.map (· ++ [c]))
  | '"' :: rest, idx, false, field => parseCsvFieldsAtAux w rest idx true field
  | ',' :: rest, idx, false, field =>
    (match field with
     | some f => [(idx, f)]
     | none => []) ++
    (if (idx : Int) ≥ w.max then []
     else parseCsvFieldsAtAux w rest (idx + 1) false
       (if w.indices.contains (idx + 1) then some [] else none))
  | c :: rest, idx, false, field =>
    parseCsvFieldsAtAux w rest idx false (field.map (· ++ [c]))

/-- `parseCsvFieldsAt` from `server.js`: the selective tokenizer. -/
def parseCsvFieldsAt (line : String) (w : WantedCsvIndices) : List (Nat × String) :=
  match line.data with
  | [] => []
  | cs => (parseCsvFieldsAtAux w cs 0 false
      (if w.indices.contains 0 then some [] else none)).map (fun p => (p.1, ⟨p.2⟩))

/-- Lookup in the map returned by `parseCsvFieldsAt` (`fields.get(i)`),
defaulting to the empty string like `String(fields.get(i) || '')`. -/
def fieldsGetD (fields : List (Nat × String)) (i : Nat) : String :=
  match fields.lookup i with
  | some v => v
  | none => ""

/-- A readable stream over a registry file, as observed by the lookup: either
the open fails with `ENOENT`, or the stream delivers `lines` and then either
ends normally (`ioErrorAfter = false`) or reports an I/O error
(`ioErrorAfter = true`). -/
inductive CsvFile where
  | enoent : CsvFile
  | content (lines : List String) (ioErrorAfter : Bool) : CsvFile
  deriving Repr, DecidableEq

/-- A stream I/O error other than `ENOENT` (the rejection value). -/
inductive IoError where
  | ioError : IoError
  deriving Repr, DecidableEq

namespace ServerJs

/-! The exported (second) `server.js` implementation: fixed FAA column
positions, first line always consumed, identifier always in column 0. -/

/-- `MASTER_COLS` from `server.js`. -/
def MASTER_COLS_N_NUMBER : Nat := 0
/-- `MASTER_COLS.MFR_MDL_CODE`. -/
def MASTER_COLS_MFR_MDL_CODE : Nat := 2
/-- `MASTER_COLS.YEAR_MFR`. -/
def MASTER_COLS_YEAR_MFR : Nat := 4
/-- `MASTER_COLS.KIT_MFR`. -/
def MASTER_COLS_KIT_MFR : Nat := 31
/-- `MASTER_COLS.KIT_MODEL`. -/
def MASTER_COLS_KIT_MODEL : Nat := 32

/-- `ACFTREF_COLS` from `server.js`. -/
def ACFTREF_COLS_CODE : Nat := 0
/-- `ACFTREF_COLS.MFR`. -/
def ACFTREF_COLS_MFR : Nat := 1
/-- `ACFTREF_COLS.MODEL`. -/
def ACFTREF_COLS_MODEL : Nat := 2
/-- `ACFTREF_COLS.TYPE_ACFT`. -/
def ACFTREF_COLS_TYPE_ACFT : Nat := 3

/-- The wanted indices used by `findAircraftInMasterCsv`. -/
def wantedMaster : WantedCsvIndices :=
  makeWantedCsvIndices
    [MASTER_COLS_MFR_MDL_CODE, MASTER_COLS_YEAR_MFR, MASTER_COLS_KIT_MFR, MASTER_COLS_KIT_MODEL]

/-- The wanted indices used by `findAircraftInAcftRef`. -/
def wantedAcftRef : WantedCsvIndices :=
  makeWantedCsvIndices [ACFTREF_COLS_MFR, ACFTREF_COLS_MODEL, ACFTREF_COLS_TYPE_ACFT]

/-- The record resolved by `findAircraftInMasterCsv`. -/
structure MasterRecord where
  nNumber : String
  year : String
  mfrMdlCode : String
  kitManufacturer : String
  kitModel : String
  deriving Repr, DecidableEq

/-- Build the `found` object of `findAircraftInMasterCsv` from a matching
line. -/
def masterRecordOfLine (needle line : String) : MasterRecord :=
  let fields := parseCsvFieldsAt line wantedMaster
  { nNumber := needle
    year := jsTrim (fieldsGetD fields MASTER_COLS_YEAR_MFR)
    mfrMdlCode := jsTrim (fieldsGetD fields MASTER_COLS_MFR_MDL_CODE)
    kitManufacturer := jsTrim (fieldsGetD fields MASTER_COLS_KIT_MFR)
    kitModel := jsTrim (fieldsGetD fields MASTER_COLS_KIT_MODEL) }

/-- The `rl.on ('line')` loop of `findAircraftInMasterCsv`: empty lines are
skipped, the first non-empty line is consumed unconditionally, every later
non-empty line is matched on its BOM/quote-stripped first field; the scan
stops at the first match. -/
def scanMaster (needle : String) : List String → Bool → Option MasterRecord
  | [], _ => none
  | line :: rest, sawFirstLine =>
    if line = "" then scanMaster needle rest sawFirstLine
    else if !sawFirstLine then scanMaster needle rest true
    else
      let first := normalizeNNumberField (readFirstCsvField line)
      if first ≠ needle then scanMaster needle rest true
      else some (masterRecordOfLine needle line)

/-- `findAircraftInMasterCsv` from `server.js` (exported variant): resolves
`none` for an empty normalized key, for a missing file (`ENOENT`) and for a
stream that ends without a match; rejects on any other stream error; resolves
the first matching record otherwise. -/
def findAircraftInMasterCsv (nNumber : String) (file : CsvFile) :
    Except IoError (Option MasterRecord) :=
  let needle := jsToUpper (jsTrim nNumber)
  if needle = "" then .ok none
  else
    match file with
    | .enoent => .ok none
    | .content lines ioErrorAfter =>
      match scanMaster needle lines false with
      | some r => .ok (some r)
      | none => if ioErrorAfter then .error .ioError else .ok none

/-- The record resolved by `findAircraftInAcftRef`. -/
structure AcftRefRecord where
  mfrMdlCode : String
  manufacturer : String
  model : String
  typeAcft : String
  deriving Repr, DecidableEq

/-- Build the `found` object of `findAircraftInAcftRef` from a matching
line. -/
def acftRefRecordOfLine (needle line : String) : AcftRefRecord :=
  let fields := parseCsvFieldsAt line wantedAcftRef
  { mfrMdlCode := needle
    manufacturer := jsTrim (fieldsGetD fields ACFTREF_COLS_MFR)
    model := jsTrim (fieldsGetD fields ACFTREF_COLS_MODEL)
    typeAcft := jsTrim (fieldsGetD fields ACFTREF_COLS_TYPE_ACFT) }

/-- The `rl.on ('line')` loop of `findAircraftInAcftRef` (mirrors
`scanMaster`, with the source's additional re-normalization check on the
first field). -/
def scanAcftRef (needle : String) : List String → Bool → Option AcftRefRecord
  | [], _ => none
  | line :: rest, sawFirstLine =>
    if line = "" then scanAcftRef needle rest sawFirstLine
    else if !sawFirstLine then scanAcftRef needle rest true
    else
      let first := normalizeNNumberField (readFirstCsvField line)
      if first ≠ needle then scanAcftRef needle rest true
      else
        let candidate := normalizeNNumberField first
        if candidate ≠ needle then scanAcftRef needle rest true
        else some (acftRefRecordOfLine needle line)

/-- `findAircraftInAcftRef` from `server.js` (exported variant). -/
def findAircraftInAcftRef (mfrMdlCode : String) (file : CsvFile) :
    Except IoError (Option AcftRefRecord) :=
  let needle := jsToUpper (jsTrim mfrMdlCode)
  if needle = "" then .ok none
  else
    match file with
    | .enoent => .ok none
    | .content lines ioErrorAfter =>
      match scanAcftRef needle lines false with
      | some r => .ok (some r)
      | none => if ioErrorAfter then .error .ioError else .ok none

/-- The value resolved by `resolveAircraftSpecsByNNumber`: the master record
spread together with the joined manufacturer/model/type fields. -/
structure ResolvedAircraft where
  nNumber : String
  year : String
  mfrMdlCode : String
  kitManufacturer : String
  kitModel : String
  manufacturer : String
  model : String
  aircraftType : Option String
  typeAcft : Option String
  deriving Repr, DecidableEq

/-- `[manufacturer, model].filter (Boolean).join (' ')`. -/
def joinType (manufacturer model : String) : String :=
  String.intercalate " " ((([manufacturer, model]).filter (fun s => s ≠ "")))

/-- `resolveAircraftSpecsByNNumber` from `server.js`: primary lookup, then a
reference lookup keyed by the primary record's `mfrMdlCode` when that code is
non-empty after trimming; the inline kit fields are used when the resulting
manufacturer and model are both empty. -/
def resolveAircraftSpecsByNNumber (nNumber : String)
    (masterFile acftRefFile : CsvFile) : Except IoError (Option ResolvedAircraft) := do
  let aircraft? ← findAircraftInMasterCsv nNumber masterFile
  match aircraft? with
  | none => return none
  | some aircraft =>
    let hasCode := jsTrim aircraft.mfrMdlCode ≠ ""
    let ref? ← if hasCode then findAircraftInAcftRef aircraft.mfrMdlCode acftRefFile
               else pure none
    let m0 := match ref? with | some ref => jsTrim ref.manufacturer | none => ""
    let mo0 := match ref? with | some ref => jsTrim ref.model | none => ""
    let t0 := match ref? with | some ref => jsTrim ref.typeAcft | none => ""
    let manufacturer := if m0 = "" && mo0 = "" then jsTrim aircraft.kitManufacturer else m0
    let model := if m0 = "" && mo0 = "" then jsTrim aircraft.kitModel else mo0
    let aircraftType := joinType manufacturer model
    return some
      { nNumber := aircraft.nNumber
        year := aircraft.year
        mfrMdlCode := aircraft.mfrMdlCode
        kitManufacturer := aircraft.kitManufacturer
        kitModel := aircraft.kitModel
        manufacturer := manufacturer
        model := model
        aircraftType := if aircraftType = "" then none else some aircraftType
        typeAcft := if t0 = "" then none else some t0 }

end ServerJs

/-- `normalizeHeaderName` from `server.js`: strip one leading BOM, trim,
uppercase. -/
def normalizeHeaderName (s : String) : String :=
  jsToUpper (jsTrim (stripLeadingBom s))

/-- The `indexByName` map of the schema resolvers: insert each column's
normalized name with its index, skipping empty names, first occurrence
winning.  Represented as the association list built left to right. -/
def buildIndexByName (cols : List String) : List (String × Nat) :=
  go cols 0 []
where
  /-- Insertion loop; `acc` holds the map built so far. -/
  go : List String → Nat → List (String × Nat) → List (String × Nat)
  | [], _, acc => acc
  | c :: rest, i, acc =>
    let key := normalizeHeaderName c
    if key = "" then go rest (i + 1) acc
    else if (acc.lookup key).isSome then go rest (i + 1) acc
    else go rest (i + 1) (acc ++ [(key, i)])

/-- `indexByName.get (name)`. -/
def indexByNameGet (cols : List String) (name : String) : Option Nat :=
  (buildIndexByName cols).lookup name

namespace ServerJsV1

/-! The first `server.js` variant's schema resolver (the one with generic
`manufacturerIdx`/`modelIdx` slots and `KIT MFR`/`KIT MODEL` synonyms). -/

/-- The schema descriptor returned by the first variant's
`inferMasterCsvSchemaFromHeaderLine`. -/
structure MasterCsvSchema where
  nNumberIdx : Nat
  yearIdx : Nat
  manufacturerIdx : Option Nat
  modelIdx : Option Nat
  deriving Repr, DecidableEq

/-- `inferMasterCsvSchemaFromHeaderLine` from the first `server.js` variant:
requires `N-NUMBER` and `YEAR MFR`; the manufacturer slot falls back from
`MANUFACTURER` to `KIT MFR`, the model slot from `MODEL` to `KIT MODEL`. -/
def inferMasterCsvSchemaFromHeaderLine (line : String) : Option MasterCsvSchema :=
  let cols := parseCsvLine line
  if cols.isEmpty then none
  else
    match indexByNameGet cols "N-NUMBER", indexByNameGet cols "YEAR MFR" with
    | some nNumberIdx, some yearIdx =>
      some { nNumberIdx := nNumberIdx
             yearIdx := yearIdx
             manufacturerIdx :=
               (indexByNameGet cols "MANUFACTURER").orElse
                 (fun _ => indexByNameGet cols "KIT MFR")
             modelIdx :=
               (indexByNameGet cols "MODEL").orElse
                 (fun _ => indexByNameGet cols "KIT MODEL") }
    | _, _ => none

end ServerJsV1

namespace Part006

/-! The `part_006` variant: schema detection on the first line with a fixed
positional fallback, and selective tokenization driven by the schema. -/

/-- The schema descriptor of `part_006`'s
`inferMasterCsvSchemaFromHeaderLine`. -/
structure MasterCsvSchema where
  nNumberIdx : Nat
  yearIdx : Nat
  mfrMdlCodeIdx : Option Nat
  kitManufacturerIdx : Option Nat
  kitModelIdx : Option Nat
  deriving Repr, DecidableEq

/-- `inferMasterCsvSchemaFromHeaderLine` from `part_006`: requires
`N-NUMBER` and `YEAR MFR`; `MFR MDL CODE`, `KIT MFR` and `KIT MODEL` are
optional. -/
def inferMasterCsvSchemaFromHeaderLine (line : String) : Option MasterCsvSchema :=
  let cols := parseCsvLine line
  if cols.isEmpty then none
  else
    match indexByNameGet cols "N-NUMBER", indexByNameGet cols "YEAR MFR" with
    | some nNumberIdx, some yearIdx =>
      some { nNumberIdx := nNumberIdx
             yearIdx := yearIdx
             mfrMdlCodeIdx := indexByNameGet cols "MFR MDL CODE"
             kitManufacturerIdx := indexByNameGet cols "KIT MFR"
             kitModelIdx := indexByNameGet cols "KIT MODEL" }
    | _, _ => none

/-- The hard-coded positional fallback schema of `part_006`'s
`findAircraftInMasterCsv`. -/
def fallbackSchema : MasterCsvSchema :=
  { nNumberIdx := 0, yearIdx := 4, mfrMdlCodeIdx := some 2
    kitManufacturerIdx := some 31, kitModelIdx := some 32 }

/-- `schema.wantedAll` (the JS array contains `null` entries, which the
`Number.isFinite` filter of `makeWantedCsvIndices` drops). -/
def wantedAllOf (s : MasterCsvSchema) : WantedCsvIndices :=
  makeWantedCsvIndices
    (([some s.nNumberIdx, some s.yearIdx, s.mfrMdlCodeIdx,
       s.kitManufacturerIdx, s.kitModelIdx]).filterMap id)

/-- `schema.wantedDetails`. -/
def wantedDetailsOf (s : MasterCsvSchema) : WantedCsvIndices :=
  makeWantedCsvIndices
    (([some s.yearIdx, s.mfrMdlCodeIdx, s.kitManufacturerIdx,
       s.kitModelIdx]).filterMap id)

/-- Build `part_006`'s `found` object from the selected fields. -/
def recordOfFields (needle : String) (s : MasterCsvSchema)
    (fields : List (Nat × String)) : ServerJs.MasterRecord :=
  { nNumber := needle
    year := jsTrim (fieldsGetD fields s.yearIdx)
    mfrMdlCode := match s.mfrMdlCodeIdx with
                  | none => ""
                  | some i => jsTrim (fieldsGetD fields i)
    kitManufacturer := match s.kitManufacturerIdx with
                       | none => ""
                       | some i => jsTrim (fieldsGetD fields i)
    kitModel := match s.kitModelIdx with
                | none => ""
                | some i => jsTrim (fieldsGetD fields i) }

/-- Process one data line of `part_006`'s `findAircraftInMasterCsv` under a
known schema: the general branch when the identifier is not in column 0, the
first-field fast path when it is. -/
def processLine (needle line : String) (s : MasterCsvSchema) :
    Option ServerJs.MasterRecord :=
  if s.nNumberIdx ≠ 0 then
    let fields := parseCsvFieldsAt line (wantedAllOf s)
    let candidate := normalizeNNumberField (fieldsGetD fields s.nNumberIdx)
    if candidate ≠ needle then none
    else some (recordOfFields needle s fields)
  else
    let first := normalizeNNumberField (readFirstCsvField line)
    if first ≠ needle then none
    else some (recordOfFields needle s (parseCsvFieldsAt line (wantedDetailsOf s)))

/-- The `rl.on ('line')` loop of `part_006`'s `findAircraftInMasterCsv`:
empty lines are skipped; the first non-empty line is consumed as a header
when one is recognized, and otherwise processed as a data row under the
fallback schema; later non-empty lines are data rows; first match wins. -/
def scanMaster (needle : String) : List String → Option MasterCsvSchema →
    Option ServerJs.MasterRecord
  | [], _ => none
  | line :: rest, st =>
    if line = "" then scanMaster needle rest st
    else
      match st with
      | none =>
        match inferMasterCsvSchemaFromHeaderLine line with
        | some headerSchema => scanMaster needle rest (some headerSchema)
        | none =>
          match processLine needle line fallbackSchema with
          | some r => some r
          | none => scanMaster needle rest (some fallbackSchema)
      | some schema =>
        match processLine needle line schema with
        | some r => some r
        | none => scanMaster needle rest (some schema)

/-- `findAircraftInMasterCsv` from `part_006`. -/
def findAircraftInMasterCsv (nNumber : String) (file : CsvFile) :
    Except IoError (Option ServerJs.MasterRecord) :=
  let needle := jsToUpper (jsTrim nNumber)
  if needle = "" then .ok none
  else
    match file with
    | .enoent => .ok none
    | .content lines ioErrorAfter =>
      match scanMaster needle lines none with
      | some r => .ok (some r)
      | none => if ioErrorAfter then .error .ioError else .ok none

end Part006

namespace RefreshFaa

/-! `atomicSwap` from `scripts/refresh-faa.js` (the two-file version, also in
`part_002`).  The filesystem is modelled by the contents at the seven paths
the function touches; `rename` moves a file (overwriting the destination) and
fails when the source is absent or a fault is injected at that call site;
`rm (force)` never fails. -/

/-- The on-disk state at the paths `atomicSwap` touches; `none` = absent. -/
structure Fs where
  master : Option String
  acftref : Option String
  oldMaster : Option String
  oldAcftRef : Option String
  extractedMaster : Option String
  extractedAcftRef : Option String
  zip : Option String
  deriving Repr, DecidableEq

/-- The six `fsp.rename` call sites of `atomicSwap` (four in the `try` block,
two in the rollback `catch` block), for fault injection. -/
inductive SwapStep where
  | renMasterToOld | renAcftToOld | renNewMaster | renNewAcft
  | rbMaster | rbAcft
  deriving Repr, DecidableEq

/-- The `try` block of `atomicSwap`: rename current files to their `.old`
sidecars, then rename the extracted files into place.  On the first failing
rename the state at failure is returned as the error. -/
def trySwap (fail : SwapStep → Bool) (hasMaster hasAcftRef : Bool) (s : Fs) :
    Except Fs Fs :=
  let r1 : Except Fs Fs :=
    if hasMaster then
      if fail .renMasterToOld || s.master.isNone then .error s
      else .ok { s with oldMaster := s.master, master := none }
    else .ok s
  match r1 with
  | .error e => .error e
  | .ok s1 =>
    let r2 : Except Fs Fs :=
      if hasAcftRef then
        if fail .renAcftToOld || s1.acftref.isNone then .error s1
        else .ok { s1 with oldAcftRef := s1.acftref, acftref := none }
      else .ok s1
    match r2 with
    | .error e => .error e
    | .ok s2 =>
      if fail .renNewMaster || s2.extractedMaster.isNone then .error s2
      else
        let s3 := { s2 with master := s2.extractedMaster, extractedMaster := none }
        if fail .renNewAcft || s3.extractedAcftRef.isNone then .error s3
        else .ok { s3 with acftref := s3.extractedAcftRef, extractedAcftRef := none }

/-- The `catch` block of `atomicSwap`: restore each `.old` sidecar only when
the corresponding target path is absent; failures of the restore renames are
swallowed. -/
def rollback (fail : SwapStep → Bool) (hasMaster hasAcftRef : Bool) (s : Fs) : Fs :=
  let s1 :=
    if hasMaster && s.oldMaster.isSome && s.master.isNone && !fail .rbMaster
    then { s with master := s.oldMaster, oldMaster := none }
    else s
  if hasAcftRef && s1.oldAcftRef.isSome && s1.acftref.isNone && !fail .rbAcft
  then { s1 with acftref := s1.oldAcftRef, oldAcftRef := none }
  else s1

/-- The success epilogue of `atomicSwap`: remove the `.old` sidecars that
were created and the downloaded archive. -/
def swapCleanup (hasMaster hasAcftRef : Bool) (s : Fs) : Fs :=
  { s with oldMaster := if hasMaster then none else s.oldMaster
           oldAcftRef := if hasAcftRef then none else s.oldAcftRef
           zip := none }

/-- `atomicSwap` from `scripts/refresh-faa.js`: returns the final filesystem
state and whether the error was re-raised. -/
def atomicSwap (fail : SwapStep → Bool) (s : Fs) : Fs × Bool :=
  let hasMaster := s.master.isSome
  let hasAcftRef := s.acftref.isSome
  match trySwap fail hasMaster hasAcftRef s with
  | .ok s4 => (swapCleanup hasMaster hasAcftRef s4, false)
  | .error sErr => (rollback fail hasMaster hasAcftRef sErr, true)

/-- Fault injection for the failed-secondary-rename scenario: only the rename
of the extracted secondary file into place fails. -/
def failSecondOnly : SwapStep → Bool := fun st => st = .renNewAcft

/-- A concrete pre-refresh filesystem: both registry files present, both
extracted files staged, archive on disk. -/
def c2Start : Fs :=
  { master := some "master-old", acftref := some "acftref-old"
    oldMaster := none, oldAcftRef := none
    extractedMaster := some "master-new", extractedAcftRef := some "acftref-new"
    zip := some "zip" }

end RefreshFaa

namespace ServerJs

/-! The remote flight-data leg and the `/check-flight` handler of the
exported `server.js` variant. -/

/-- One entry of the remote API's array response: the optional `aircraft`
object with its optional `reg` and `registration` fields (`none` models a
missing field, `some ""` an empty string, both falsy in JS). -/
structure FlightEntry where
  reg : Option String
  registration : Option String
  deriving Repr, DecidableEq

/-- JavaScript `a || b` on nullable strings: `a` wins unless it is `null`,
`undefined` or `""`. -/
def jsOr (a b : Option String) : Option String :=
  match a with
  | some s => if s = "" then b else some s
  | none => b

/-- `extractRegistrationFromFlightResponse` from `server.js`:
`data?.[0]?.aircraft?.reg || data?.[0]?.aircraft?.registration || null`
(first element wins; the final `|| null` maps an empty string to `null`). -/
def extractRegistrationFromFlightResponse (data : List (Option FlightEntry)) :
    Option String :=
  match data with
  | [] => none
  | e :: _ =>
    let chained := match e with
      | none => none
      | some entry => jsOr entry.reg entry.registration
    match chained with
    | some s => if s = "" then none else some s
    | none => none

/-- How one `fetchImpl` call turns out: the fetch throws (network error or
abort on timeout), or it returns a response with an HTTP `ok` flag and a body
that either parses as JSON or does not. -/
inductive FetchOutcome where
  | throws : FetchOutcome
  | response (ok : Bool) (body : Except Unit (List (Option FlightEntry))) : FetchOutcome
  deriving Repr

/-- The `{ ok, registration }` result of `fetchTailNumber`. -/
structure TailResult where
  ok : Bool
  registration : Option String
  deriving Repr, DecidableEq

/-- `fetchTailNumber` from `server.js` (exported variant): a missing API key,
a thrown fetch, a non-OK HTTP status and an unparseable body all yield
`ok := false`; a successful call yields `ok := true` with the extracted
registration (or `none`). -/
def fetchTailNumber (apiKey : String) (outcome : FetchOutcome) : TailResult :=
  if apiKey = "" then { ok := false, registration := none }
  else
    match outcome with
    | .throws => { ok := false, registration := none }
    | .response httpOk body =>
      if !httpOk then { ok := false, registration := none }
      else
        match body with
        | .error _ => { ok := false, registration := none }
        | .ok data =>
          { ok := true, registration := extractRegistrationFromFlightResponse data }

/-- The demo aircraft returned by `getPublicBypassResult`. -/
structure BypassResult where
  registration : String
  nNumber : Option String
  year : String
  manufacturer : String
  model : String
  age : Int
  deriving Repr, DecidableEq

/-- `getPublicBypassResult` from `server.js`. -/
def getPublicBypassResult (flightNumber date : String) : Option BypassResult :=
  if flightNumber ≠ "TT111" then none
  else if date ≠ "2025-01-01" then none
  else some
    { registration := "TT-111"
      nNumber := none
      year := "2015"
      manufacturer := "Incom Corporation"
      model := "T-65B X-wing Starfighter"
      age := 10 }

/-- `normalizeFlightNumber` from `server.js` (exported variant): remove every
`\s` character and uppercase. -/
def normalizeFlightNumber (value : String) : String :=
  jsToUpper ⟨value.data.filter (fun c => !isJsWhitespace c)⟩

/-- `^\d{4}-\d{2}-\d{2}$`. -/
def matchesDateFormat (s : String) : Bool :=
  match s.data with
  | [a, b, c, d, h1, e, f, h2, g, h] =>
    a.isDigit && b.isDigit && c.isDigit && d.isDigit && h1 = '-' &&
    e.isDigit && f.isDigit && h2 = '-' && g.isDigit && h.isDigit
  | _ => false

/-- `normalizeDate` from `server.js`. -/
def normalizeDate (value : String) : Option String :=
  let raw := jsTrim value
  if matchesDateFormat raw then some raw else none

/-- `normalizeNNumberFromRegistration` from `server.js` (exported variant):
trim, keep `[0-9A-Za-z]`, strip one leading `N`/`n`, uppercase. -/
def normalizeNNumberFromRegistration (registration : String) : String :=
  let cleaned := (jsTrim registration).data.filter Char.isAlphanum
  let dropped := match cleaned with
    | c :: rest => if c = 'N' || c = 'n' then rest else cleaned
    | [] => []
  jsToUpper ⟨dropped⟩

/-- The `validateCheckFlight` chain: `flightNumber` is trimmed then must
have length 2–10 and match `^[0-9A-Za-z ]+$`; `date` is trimmed then must
match `^\d{4}-\d{2}-\d{2}$`. -/
def validateCheckFlight (rawFlightNumber rawDate : String) : Bool :=
  let fn := jsTrim rawFlightNumber
  (2 ≤ fn.length && fn.length ≤ 10 &&
   fn.data ≠ [] && fn.data.all (fun c => c.isAlphanum || c = ' ')) &&
  matchesDateFormat (jsTrim rawDate)

/-- The success JSON payload of `/check-flight`'s registry path. -/
structure SuccessPayload where
  flightNumber : String
  date : String
  registration : String
  nNumber : String
  year : String
  manufacturer : String
  model : String
  aircraftType : Option String
  age : Option Int
  deriving Repr, DecidableEq

/-- `Number (aircraft.year)` followed by the finiteness check, modelled for
the decimal year strings the registry carries. -/
def ageFromYear (year : String) (nowYear : Int) : Option Int :=
  if year ≠ "" && year.data.all Char.isDigit then
    some (max 0 (nowYear - (year.toNat!)))
  else none

/-- The distinct responses the `/check-flight` handler can produce. -/
inductive CheckFlightResponse where
  /-- 400 `Invalid input.` -/
  | invalidInput : CheckFlightResponse
  /-- The public-bypass success JSON (`ok: true` with the demo aircraft). -/
  | bypassSuccess (flightNumber date : String) (r : BypassResult) : CheckFlightResponse
  /-- 500 `Server not configured.` -/
  | notConfigured : CheckFlightResponse
  /-- `ok: false` with a user-facing message. -/
  | failJson (message : String) : CheckFlightResponse
  /-- `ok: true` with the resolved aircraft. -/
  | success (payload : SuccessPayload) : CheckFlightResponse
  /-- 500 `Server error.` (the handler's catch). -/
  | serverError : CheckFlightResponse
  deriving Repr, DecidableEq

/-- The handler's observable behaviour: its response, and whether it invoked
the remote flight lookup and the registry scan. -/
structure CheckFlightRun where
  response : CheckFlightResponse
  remoteInvoked : Bool
  registryScanned : Bool
  deriving Repr, DecidableEq

/-- The `/check-flight` handler of the exported `server.js` variant, from
validation to response. -/
def checkFlightHandler (rawFlightNumber rawDate : String) (apiKey : String)
    (remote : FetchOutcome) (masterFile acftRefFile : CsvFile) (nowYear : Int) :
    CheckFlightRun :=
  if !validateCheckFlight rawFlightNumber rawDate then
    { response := .invalidInput, remoteInvoked := false, registryScanned := false }
  else
    let flightNumber := normalizeFlightNumber (jsTrim rawFlightNumber)
    match normalizeDate (jsTrim rawDate) with
    | none => { response := .invalidInput, remoteInvoked := false, registryScanned := false }
    | some date =>
      if flightNumber = "" then
        { response := .invalidInput, remoteInvoked := false, registryScanned := false }
      else
        match getPublicBypassResult (jsToUpper flightNumber) date with
        | some bypass =>
          { response := .bypassSuccess flightNumber date bypass
            remoteInvoked := false, registryScanned := false }
        | none =>
          if apiKey = "" then
            { response := .notConfigured, remoteInvoked := false, registryScanned := false }
          else
            let tailResult := fetchTailNumber apiKey remote
            if !tailResult.ok then
              { response := .failJson "Flight details currently unavailable."
                remoteInvoked := true, registryScanned := false }
            else
              match tailResult.registration with
              | none =>
                { response := .failJson "Airline hasn't published an assigned aircraft yet."
                  remoteInvoked := true, registryScanned := false }
              | some registration =>
                let nNumber := normalizeNNumberFromRegistration registration
                match resolveAircraftSpecsByNNumber nNumber masterFile acftRefFile with
                | .error _ =>
                  { response := .serverError, remoteInvoked := true, registryScanned := true }
                | .ok none =>
                  { response := .failJson "Aircraft specs not in local registry."
                    remoteInvoked := true, registryScanned := true }
                | .ok (some aircraft) =>
                  if aircraft.year = "" then
                    { response := .failJson "Aircraft specs not in local registry."
                      remoteInvoked := true, registryScanned := true }
                  else
                    { response := .success
                        { flightNumber := flightNumber
                          date := date
                          registration := registration
                          nNumber := nNumber
                          year := aircraft.year
                          manufacturer := aircraft.manufacturer
                          model := aircraft.model
                          aircraftType := aircraft.aircraftType
                          age := ageFromYear aircraft.year nowYear }
                      remoteInvoked := true, registryScanned := true }

end ServerJs

namespace Coalescer

/-! Modelled from the spec: the Result Cache + Coalescer's `getOrCreate` and
its in-flight tickets are described in §4.6 of the specification but the
component is not present under `src/`; the model below follows the spec's
words.  Execution is cooperative and single-threaded (§5), so each caller's
cache/ticket inspection step is atomic. -/

/-- Modelled from the spec: the coalescer's state — the cache (key to live
value), the in-flight ticket map (key to pending-operation handle), a counter
of factory invocations and a supply of fresh ticket ids. -/
structure State (V : Type) where
  cache : String → Option V
  ticket : String → Option Nat
  factoryCalls : Nat
  nextId : Nat

/-- What one `getOrCreate` caller observes on entry: a cache hit, attachment
to the existing in-flight ticket, or creation of a new ticket (which runs the
factory). -/
inductive StartResult (V : Type) where
  | hit (v : V)
  | attached (ticketId : Nat)
  | created (ticketId : Nat)

/-- Modelled from the spec: the entry step of `getOrCreate (key, factory)` —
return a cache hit if one exists; else attach to an existing in-flight
ticket; else create a ticket and invoke the factory. -/
def getOrCreateStart {V : Type} (s : State V) (key : String) :
    StartResult V × State V :=
  match s.cache key with
  | some v => (.hit v, s)
  | none =>
    match s.ticket key with
    | some t => (.attached t, s)
    | none =>
      (.created s.nextId,
       { s with ticket := fun k => if k = key then some s.nextId else s.ticket k
                factoryCalls := s.factoryCalls + 1
                nextId := s.nextId + 1 })

/-- Modelled from the spec: settlement of a key's in-flight operation — every
caller holding that key's ticket observes `outcome`; the value is cached only
on success and only when `cacheable` holds of it; the ticket is removed
unconditionally. -/
def ticketSettle {V E : Type} (s : State V) (key : String)
    (outcome : Except E V) (cacheable : V → Bool) : State V :=
  { s with ticket := fun k => if k = key then none else s.ticket k
           cache := fun k =>
             if k = key then
               match outcome with
               | .ok v => if cacheable v then some v else s.cache k
               | .error _ => s.cache k
             else s.cache k }

end Coalescer

namespace Fixtures

/-- A 33-column primary registry row: identifier `123AB`, join-key code
`CODE1` in column 2, year `2015` in column 4, inline kit fields `KITM` /
`KITMOD` in columns 31 and 32. -/
def kitMasterRow : String :=
  "123AB,,CODE1,,2015," ++ String.join (List.replicate 26 ",") ++ "KITM,KITMOD"

/-- A primary registry file holding `kitMasterRow` behind a header line. -/
def kitMasterFile : CsvFile := .content ["HDR", kitMasterRow] false

/-- A reference file whose record for `CODE1` has empty manufacturer, model
and type fields. -/
def emptyRefFile : CsvFile := .content ["HDR", "CODE1,,,"] false

/-- A reference file whose record for `CODE1` carries a manufacturer and a
model. -/
def boeingRefFile : CsvFile := .content ["HDR", "CODE1,BOEING,737,4"] false

/-- A headerless single-line registry file whose only line is a data row for
`123AB` under the fixed positional layout. -/
def headerlessFile : CsvFile := .content ["123AB,S,C1,X,2015"] false

end Fixtures

/-! ## Basic lemmas about the string model -/

/-- `Char.ofNat` is faithful on the ASCII uppercase range. -/
theorem charOfNat_toNat (m : Nat) (h1 : 65 ≤ m) (h2 : m ≤ 90) :
    (Char.ofNat m).toNat = m := by
  unfold Char.ofNat
  split
  · rfl
  · next h => exact absurd (Or.inl (by omega)) h

/-- ASCII uppercasing is idempotent. -/
theorem toUpper_idem (c : Char) : c.toUpper.toUpper = c.toUpper := by
  unfold Char.toUpper
  by_cases hc : c.toNat ≥ 97 ∧ c.toNat ≤ 122
  · have ht : (Char.ofNat (c.toNat - 32)).toNat = c.toNat - 32 :=
      charOfNat_toNat _ (by omega) (by omega)
    have hno : ¬((c.toNat - 32) ≥ 97 ∧ (c.toNat - 32) ≤ 122) := by omega
    simp only [hc, and_self, if_true, ht, hno, if_false]
  · simp only [hc, if_false]

/-- A character that is not ASCII lowercase is fixed by `toUpper`. -/
theorem toUpper_eq_self (c : Char) (h : ¬(97 ≤ c.toNat ∧ c.toNat ≤ 122)) :
    c.toUpper = c := by
  unfold Char.toUpper
  simp only [ge_iff_le, h, if_false]

/-- `jsToUpper` is idempotent. -/
theorem jsToUpper_idem (s : String) : jsToUpper (jsToUpper s) = jsToUpper s := by
  unfold jsToUpper
  congr 1
  rw [List.map_map]
  exact List.map_congr_left (fun c _ => toUpper_idem c)

/-- The source's `toUpperIfNeeded` shortcut computes plain uppercasing. -/
theorem toUpperIfNeeded_eq_jsToUpper (s : String) :
    toUpperIfNeeded s = jsToUpper s := by
  unfold toUpperIfNeeded
  split
  · rfl
  · next h =>
    unfold jsToUpper
    have : ∀ c ∈ s.data, Char.toUpper c = c := by
      intro c hc
      refine toUpper_eq_self c ?_
      intro hlow
      exact h (List.any_eq_true.mpr ⟨c, hc, by simp [hlow.1, hlow.2]⟩)
    cases s with
    | mk data => simp only [List.map_congr_left this, List.map_id']

/-- `normalizeFlightNumber` output is already uppercased, so the handler's
second `toUpperCase` is the identity on it. -/
theorem jsToUpper_normalizeFlightNumber (v : String) :
    jsToUpper (ServerJs.normalizeFlightNumber v) = ServerJs.normalizeFlightNumber v := by
  unfold ServerJs.normalizeFlightNumber
  exact jsToUpper_idem _

/-! ## The schema resolvers' name map -/

/-- `List.lookup` through an appended singleton. -/
theorem lookup_append_singleton (acc : List (String × Nat)) (key : String) (i : Nat)
    (name : String) :
    (acc ++ [(key, i)]).lookup name =
      match acc.lookup name with
      | some v => some v
      | none => if name = key then some i else none := by
  induction acc with
  | nil =>
    simp only [List.nil_append, List.lookup_cons, List.lookup_nil]
    by_cases h : name = key
    · have hb : (name == key) = true := beq_iff_eq.mpr h
      simp [hb, h]
    · have hb : (name == key) = false := beq_eq_false_iff_ne.mpr h
      simp [hb, h]
  | cons hd tl ih =>
    obtain ⟨k, v⟩ := hd
    simp only [List.cons_append, List.lookup_cons]
    by_cases h : name = k
    · have hb : (name == k) = true := beq_iff_eq.mpr h
      simp [hb]
    · have hb : (name == k) = false := beq_eq_false_iff_ne.mpr h
      simp only [hb]
      exact ih

/-- Looking a non-empty name up in the `indexByName` map yields the first
column whose normalized name matches. -/
theorem lookup_buildIndexByName_go (name : String) (hne : name ≠ "") :
    ∀ (cols : List String) (i : Nat) (acc : List (String × Nat)),
      (buildIndexByName.go cols i acc).lookup name =
        match acc.lookup name with
        | some v => some v
        | none => List.findIdx? (fun c => normalizeHeaderName c = name) cols i := by
  intro cols
  induction cols with
  | nil =>
    intro i acc
    simp only [buildIndexByName.go, List.findIdx?_nil]
    cases h : acc.lookup name <;> simp
  | cons c rest ih =>
    intro i acc
    simp only [buildIndexByName.go, List.findIdx?_cons]
    by_cases hkey : normalizeHeaderName c = ""
    · have hpc : (decide (("" : String) = name)) = false := by
        simp only [decide_eq_false_iff_not]
        exact Ne.symm hne
      simp [hkey, ih, hpc]
    · simp only [if_neg hkey]
      by_cases hsome : (acc.lookup (normalizeHeaderName c)).isSome = true
      · simp only [if_pos hsome, ih]
        by_cases heq : normalizeHeaderName c = name
        · rw [heq] at hsome
          obtain ⟨v, hv⟩ := Option.isSome_iff_exists.mp hsome
          simp [hv]
        · have hpc : (decide (normalizeHeaderName c = name)) = false := by
            simp [heq]
          simp [hpc]
      · simp only [if_neg hsome, ih, lookup_append_singleton]
        by_cases heq : normalizeHeaderName c = name
        · have hnone : acc.lookup name = none := by
            rw [← heq]
            exact Option.not_isSome_iff_eq_none.mp hsome
          simp [hnone, heq]
        · have hpc : (decide (normalizeHeaderName c = name)) = false := by
            simp [heq]
          cases hl : acc.lookup name with
          | some v => simp [hl, hpc]
          | none => simp [hl, hpc, Ne.symm heq]

/-- `indexByName.get (name)` for a non-empty name is the first column index
whose normalized header name equals `name`. -/
theorem indexByNameGet_eq_findIdx (cols : List String) (name : String) (hne : name ≠ "") :
    indexByNameGet cols name =
      List.findIdx? (fun c => normalizeHeaderName c = name) cols := by
  unfold indexByNameGet buildIndexByName
  rw [lookup_buildIndexByName_go name hne cols 0 []]
  simp

/-! ## C9: the kit-only header claim -/

/-- C9: a header line carrying the required `N-NUMBER` and `YEAR MFR`
columns and naming only `KIT MFR`/`KIT MODEL` (no `MANUFACTURER`, no
`MODEL`) yields a schema whose logical manufacturer and model slots hold the
positions of the kit columns. -/
theorem inferMasterCsvSchema_kit_fallback (line : String)
    (nIdx yIdx kmIdx kmoIdx : Nat)
    (hN : List.findIdx? (fun c => normalizeHeaderName c = "N-NUMBER")
            (parseCsvLine line) = some nIdx)
    (hY : List.findIdx? (fun c => normalizeHeaderName c = "YEAR MFR")
            (parseCsvLine line) = some yIdx)
    (hnoMan : ∀ c ∈ parseCsvLine line, normalizeHeaderName c ≠ "MANUFACTURER")
    (hnoMod : ∀ c ∈ parseCsvLine line, normalizeHeaderName c ≠ "MODEL")
    (hKM : List.findIdx? (fun c => normalizeHeaderName c = "KIT MFR")
            (parseCsvLine line) = some kmIdx)
    (hKMo : List.findIdx? (fun c => normalizeHeaderName c = "KIT MODEL")
            (parseCsvLine line) = some kmoIdx) :
    ServerJsV1.inferMasterCsvSchemaFromHeaderLine line =
      some { nNumberIdx := nIdx, yearIdx := yIdx
             manufacturerIdx := some kmIdx, modelIdx := some kmoIdx } := by
  have hMan : indexByNameGet (parseCsvLine line) "MANUFACTURER" = none := by
    rw [indexByNameGet_eq_findIdx _ _ (by decide)]
    rw [List.findIdx?_eq_none_iff]
    intro c hc
    simp [hnoMan c hc]
  have hMod : indexByNameGet (parseCsvLine line) "MODEL" = none := by
    rw [indexByNameGet_eq_findIdx _ _ (by decide)]
    rw [List.findIdx?_eq_none_iff]
    intro c hc
    simp [hnoMod c hc]
  have hne : ¬(parseCsvLine line).isEmpty := by
    intro h
    rw [List.isEmpty_iff.mp h] at hN
    simp [List.findIdx?_nil] at hN
  simp only [ServerJsV1.inferMasterCsvSchemaFromHeaderLine]
  rw [if_neg hne]
  rw [indexByNameGet_eq_findIdx _ "N-NUMBER" (by decide),
      indexByNameGet_eq_findIdx _ "YEAR MFR" (by decide),
      indexByNameGet_eq_findIdx _ "KIT MFR" (by decide),
      indexByNameGet_eq_findIdx _ "KIT MODEL" (by decide)]
  rw [hN, hY, hMan, hMod, hKM, hKMo]
  rfl

/-- Witness for `inferMasterCsvSchema_kit_fallback` at a concrete kit-only
header line. -/
theorem inferMasterCsvSchema_kit_fallback_witness :
    ServerJsV1.inferMasterCsvSchemaFromHeaderLine "N-NUMBER,YEAR MFR,KIT MFR,KIT MODEL" =
      some { nNumberIdx := 0, yearIdx := 1
             manufacturerIdx := some 2, modelIdx := some 3 } :=
  inferMasterCsvSchema_kit_fallback "N-NUMBER,YEAR MFR,KIT MFR,KIT MODEL" 0 1 2 3
    (by decide) (by decide) (by decide) (by decide) (by decide) (by decide)

/-! ## The streaming lookup's scan -/

namespace ServerJs

/-- Every record `scanMaster` returns carries the needle as its
identifier. -/
theorem scanMaster_sound (needle : String) :
    ∀ (lines : List String) (saw : Bool) (r : MasterRecord),
      scanMaster needle lines saw = some r → r.nNumber = needle := by
  intro lines
  induction lines with
  | nil => intro saw r h; simp [scanMaster] at h
  | cons line rest ih =>
    intro saw r h
    simp only [scanMaster] at h
    by_cases h0 : line = ""
    · rw [if_pos h0] at h
      exact ih saw r h
    · rw [if_neg h0] at h
      cases saw with
      | false => simp only [Bool.not_false, if_true] at h; exact ih true r h
      | true =>
        simp only [Bool.not_true, Bool.false_eq_true, if_false] at h
        by_cases hm : normalizeNNumberField (readFirstCsvField line) ≠ needle
        · rw [if_pos hm] at h
          exact ih true r h
        · rw [if_neg hm] at h
          cases h
          rfl

/-- Scanning in data mode ignores empty lines and stops at the first
matching non-empty line; if some non-empty line matches, a record is
found. -/
theorem scanMaster_some_of_match (needle : String) :
    ∀ (lines : List String) (l : String), l ∈ lines → l ≠ "" →
      normalizeNNumberField (readFirstCsvField l) = needle →
      ∃ r, scanMaster needle lines true = some r := by
  intro lines
  induction lines with
  | nil => intro l hl; simp at hl
  | cons line rest ih =>
    intro l hl hne hmatch
    simp only [scanMaster]
    by_cases h0 : line = ""
    · rw [if_pos h0]
      rcases List.mem_cons.mp hl with rfl | hmem
      · exact absurd h0 hne
      · exact ih l hmem hne hmatch
    · rw [if_neg h0]
      simp only [Bool.not_true, Bool.false_eq_true, if_false]
      by_cases hm : normalizeNNumberField (readFirstCsvField line) ≠ needle
      · rw [if_pos hm]
        rcases List.mem_cons.mp hl with rfl | hmem
        · exact absurd hmatch hm
        · exact ih l hmem hne hmatch
      · rw [if_neg hm]
        exact ⟨_, rfl⟩

/-- If no non-empty line matches, a data-mode scan finds nothing. -/
theorem scanMaster_none_of_no_match (needle : String) :
    ∀ (lines : List String),
      (∀ l ∈ lines, l ≠ "" → normalizeNNumberField (readFirstCsvField l) ≠ needle) →
      scanMaster needle lines true = none := by
  intro lines
  induction lines with
  | nil => intro _; simp [scanMaster]
  | cons line rest ih =>
    intro hno
    simp only [scanMaster]
    by_cases h0 : line = ""
    · rw [if_pos h0]
      exact ih (fun l hl => hno l (List.mem_cons_of_mem _ hl))
    · rw [if_neg h0]
      simp only [Bool.not_true, Bool.false_eq_true, if_false]
      rw [if_pos (hno line (List.mem_cons_self _ _) h0)]
      exact ih (fun l hl => hno l (List.mem_cons_of_mem _ hl))

/-- Skipping empty lines commutes with filtering them away. -/
theorem scanMaster_eq_filter (needle : String) :
    ∀ (lines : List String) (saw : Bool),
      scanMaster needle lines saw =
        scanMaster needle (lines.filter (fun l => l ≠ "")) saw := by
  intro lines
  induction lines with
  | nil => intro saw; rfl
  | cons line rest ih =>
    intro saw
    by_cases h0 : line = ""
    · rw [List.filter_cons_of_neg (by simp [h0])]
      have hl : scanMaster needle (line :: rest) saw = scanMaster needle rest saw := by
        simp only [scanMaster, if_pos h0]
      rw [hl]
      exact ih saw
    · rw [List.filter_cons_of_pos (by simp [h0])]
      simp only [scanMaster, if_neg h0]
      cases saw with
      | false =>
        simp only [Bool.not_false, if_true]
        exact ih true
      | true =>
        simp only [Bool.not_true, Bool.false_eq_true, if_false]
        by_cases hm : normalizeNNumberField (readFirstCsvField line) ≠ needle
        · rw [if_pos hm, if_pos hm]
          exact ih true
        · rw [if_neg hm, if_neg hm]

/-- A non-empty leading line is consumed (header position) and the scan
continues in data mode. -/
theorem scanMaster_cons_header (needle f : String) (ds : List String) (hfne : f ≠ "") :
    scanMaster needle (f :: ds) false = scanMaster needle ds true := by
  simp only [scanMaster, if_neg hfne]
  simp

/-- `findAircraftInMasterCsv` on a delivered-content stream, unfolded. -/
theorem findAircraftInMasterCsv_content (q : String) (lines : List String) (e : Bool) :
    findAircraftInMasterCsv q (.content lines e) =
      (if jsToUpper (jsTrim q) = "" then .ok none
       else
         match scanMaster (jsToUpper (jsTrim q)) lines false with
         | some r => .ok (some r)
         | none => if e then .error .ioError else .ok none) := rfl

/-- `findAircraftInMasterCsv` on a missing file. -/
theorem findAircraftInMasterCsv_enoent (q : String) :
    findAircraftInMasterCsv q .enoent = .ok none := by
  simp only [findAircraftInMasterCsv]
  split_ifs <;> rfl

end ServerJs

/-! ## C1: identifier normalization claim -/

/-- C1: for a query whose trim-and-uppercase normalization is non-empty, any
record the lookup returns carries exactly the normalized query as its
identifier; any data row (a non-empty line after the consumed first
non-empty line) whose first field, after BOM-strip, quote-strip, trim and
uppercase, equals the normalized query is matched; and queries with the same
normalization — differing only in casing, surrounding whitespace or a
leading BOM (all erased by `trim`/`toUpperCase`) — behave identically. -/
theorem findAircraftInMasterCsv_matches_normalized_query (q : String) (file : CsvFile) :
    (∀ r, ServerJs.findAircraftInMasterCsv q file = .ok (some r) →
       r.nNumber = jsToUpper (jsTrim q)) ∧
    (∀ lines e l, file = .content lines e →
       l ∈ (lines.filter (fun x => x ≠ "")).drop 1 →
       normalizeNNumberField (readFirstCsvField l) = jsToUpper (jsTrim q) →
       jsToUpper (jsTrim q) ≠ "" →
       ∃ r, ServerJs.findAircraftInMasterCsv q file = .ok (some r) ∧
         r.nNumber = jsToUpper (jsTrim q)) ∧
    (∀ q', jsToUpper (jsTrim q') = jsToUpper (jsTrim q) →
       ServerJs.findAircraftInMasterCsv q' file = ServerJs.findAircraftInMasterCsv q file) := by
  refine ⟨?_, ?_, ?_⟩
  · intro r h
    simp only [ServerJs.findAircraftInMasterCsv] at h
    split_ifs at h with h0
    · simp at h
    · cases file with
      | enoent => simp at h
      | content lines e =>
        simp only at h
        cases hscan : ServerJs.scanMaster (jsToUpper (jsTrim q)) lines false with
        | some r' =>
          rw [hscan] at h
          cases h
          exact ServerJs.scanMaster_sound _ lines false r hscan
        | none =>
          rw [hscan] at h
          split_ifs at h
          simp at h
  · rintro lines e l rfl hmem hmatch hne
    rw [ServerJs.findAircraftInMasterCsv_content, if_neg hne,
        ServerJs.scanMaster_eq_filter]
    cases hf : lines.filter (fun x => x ≠ "") with
    | nil => rw [hf] at hmem; simp at hmem
    | cons f ds =>
      rw [hf] at hmem
      simp only [List.drop_one, List.tail_cons] at hmem
      have hfne : f ≠ "" := by
        have : f ∈ lines.filter (fun x => x ≠ "") := hf ▸ List.mem_cons_self _ _
        simpa using (List.mem_filter.mp this).2
      have hlne : l ≠ "" := by
        have : l ∈ lines.filter (fun x => x ≠ "") := hf ▸ List.mem_cons_of_mem _ hmem
        simpa using (List.mem_filter.mp this).2
      obtain ⟨r, hr⟩ :=
        ServerJs.scanMaster_some_of_match (jsToUpper (jsTrim q)) ds l hmem hlne hmatch
      rw [ServerJs.scanMaster_cons_header _ f ds hfne, hr]
      exact ⟨r, rfl, ServerJs.scanMaster_sound _ ds true r hr⟩
  · intro q' hq
    simp only [ServerJs.findAircraftInMasterCsv]
    rw [hq]

/-- Witness for `findAircraftInMasterCsv_matches_normalized_query` on a
concrete file: the query `" 123ab "` matches the row `123AB,...` behind a
header line. -/
theorem findAircraftInMasterCsv_matches_normalized_query_witness :
    ∃ r, ServerJs.findAircraftInMasterCsv " 123ab "
        (.content ["HDR,X", "999,S", "123AB,S,C1,X,2015"] false) = .ok (some r) ∧
      r.nNumber = jsToUpper (jsTrim " 123ab ") :=
  (findAircraftInMasterCsv_matches_normalized_query " 123ab "
      (.content ["HDR,X", "999,S", "123AB,S,C1,X,2015"] false)).2.1
    ["HDR,X", "999,S", "123AB,S,C1,X,2015"] false "123AB,S,C1,X,2015"
    rfl (by decide) (by decide) (by decide)

/-! ## C3: not-found versus error claim -/

/-- C3: the lookup resolves "not found" both when the stream ends without a
matching identifier and when the file is absent (`ENOENT`); it rejects only
when the stream reports some other I/O error, and does reject when such an
error occurs and no delivered data row matched; a lookup for an identifier
absent from an error-free file never rejects. -/
theorem findAircraftInMasterCsv_error_handling (q : String) (lines : List String)
    (file : CsvFile) :
    (ServerJs.findAircraftInMasterCsv q .enoent = .ok none) ∧
    ((∀ l ∈ (lines.filter (fun x => x ≠ "")).drop 1,
        normalizeNNumberField (readFirstCsvField l) ≠ jsToUpper (jsTrim q)) →
      ServerJs.findAircraftInMasterCsv q (.content lines false) = .ok none) ∧
    (∀ e, ServerJs.findAircraftInMasterCsv q file = .error e →
      ∃ ls, file = .content ls true) ∧
    ((∀ l ∈ (lines.filter (fun x => x ≠ "")).drop 1,
        normalizeNNumberField (readFirstCsvField l) ≠ jsToUpper (jsTrim q)) →
      jsToUpper (jsTrim q) ≠ "" →
      ServerJs.findAircraftInMasterCsv q (.content lines true) = .error .ioError) := by
  have hscan : (∀ l ∈ (lines.filter (fun x => x ≠ "")).drop 1,
      normalizeNNumberField (readFirstCsvField l) ≠ jsToUpper (jsTrim q)) →
      ServerJs.scanMaster (jsToUpper (jsTrim q)) lines false = none := by
    intro hno
    rw [ServerJs.scanMaster_eq_filter]
    cases hf : lines.filter (fun x => x ≠ "") with
    | nil => rfl
    | cons f ds =>
      have hfne : f ≠ "" := by
        have : f ∈ lines.filter (fun x => x ≠ "") := hf ▸ List.mem_cons_self _ _
        simpa using (List.mem_filter.mp this).2
      rw [ServerJs.scanMaster_cons_header _ f ds hfne]
      refine ServerJs.scanMaster_none_of_no_match _ ds (fun l hl hlne => ?_)
      exact hno l (by rw [hf]; simpa using hl)
  refine ⟨?_, ?_, ?_, ?_⟩
  · exact ServerJs.findAircraftInMasterCsv_enoent q
  · intro hno
    rw [ServerJs.findAircraftInMasterCsv_content]
    by_cases h0 : jsToUpper (jsTrim q) = ""
    · rw [if_pos h0]
    · rw [if_neg h0, hscan hno]
      rfl
  · intro e h
    cases file with
    | enoent =>
      rw [ServerJs.findAircraftInMasterCsv_enoent] at h
      exact absurd h (by simp)
    | content ls ioErr =>
      rw [ServerJs.findAircraftInMasterCsv_content] at h
      by_cases h0 : jsToUpper (jsTrim q) = ""
      · rw [if_pos h0] at h
        exact absurd h (by simp)
      · rw [if_neg h0] at h
        cases hsc : ServerJs.scanMaster (jsToUpper (jsTrim q)) ls false with
        | some r =>
          rw [hsc] at h
          exact absurd h (by simp)
        | none =>
          rw [hsc] at h
          cases ioErr with
          | false => simp at h
          | true => exact ⟨ls, rfl⟩
  · intro hno hne
    rw [ServerJs.findAircraftInMasterCsv_content, if_neg hne, hscan hno]
    rfl

/-- Witness for `findAircraftInMasterCsv_error_handling`: an absent
identifier resolves "not found" on an error-free file and rejects on an
erroring stream; `ENOENT` resolves "not found". -/
theorem findAircraftInMasterCsv_error_handling_witness :
    (ServerJs.findAircraftInMasterCsv "999" .enoent = .ok none) ∧
    ServerJs.findAircraftInMasterCsv "999"
      (.content ["HDR,X", "123AB,S,C1,X,2015"] false) = .ok none ∧
    ServerJs.findAircraftInMasterCsv "999"
      (.content ["HDR,X", "123AB,S,C1,X,2015"] true) = .error .ioError := by
  have T := findAircraftInMasterCsv_error_handling "999"
    ["HDR,X", "123AB,S,C1,X,2015"] .enoent
  exact ⟨T.1, T.2.1 (by decide), T.2.2.2 (by decide) (by decide)⟩

/-! ## C2: the swap-rollback claim -/

/-- C2 (counterexample): with both registry files present, when the rename of
the new primary into place succeeds and the rename of the new secondary
fails, `atomicSwap` re-raises but the primary file is NOT back in its
pre-refresh state: it holds the newly extracted primary while the secondary
holds the old data, so a mixed dataset generation is observable on disk. -/
theorem atomicSwap_mixed_generation_counterexample :
    (RefreshFaa.atomicSwap RefreshFaa.failSecondOnly RefreshFaa.c2Start).2 = true ∧
    (RefreshFaa.atomicSwap RefreshFaa.failSecondOnly RefreshFaa.c2Start).1.master =
      some "master-new" ∧
    (RefreshFaa.atomicSwap RefreshFaa.failSecondOnly RefreshFaa.c2Start).1.master ≠
      RefreshFaa.c2Start.master ∧
    (RefreshFaa.atomicSwap RefreshFaa.failSecondOnly RefreshFaa.c2Start).1.acftref =
      RefreshFaa.c2Start.acftref := by
  decide

/-- C2 (amended): in the same scenario, after `atomicSwap` re-raises the
secondary registry file is restored to its exact pre-refresh content and the
primary file exists holding the newly swapped-in primary — neither registry
file is left absent, but the pre-refresh primary is not restored. -/
theorem atomicSwap_failed_second_rename (fail : RefreshFaa.SwapStep → Bool)
    (s : RefreshFaa.Fs)
    (hm : s.master.isSome) (ha : s.acftref.isSome)
    (hem : s.extractedMaster.isSome) (hea : s.extractedAcftRef.isSome)
    (f1 : fail .renMasterToOld = false) (f2 : fail .renAcftToOld = false)
    (f3 : fail .renNewMaster = false) (f4 : fail .renNewAcft = true)
    (f5 : fail .rbAcft = false) :
    (RefreshFaa.atomicSwap fail s).2 = true ∧
    (RefreshFaa.atomicSwap fail s).1.master = s.extractedMaster ∧
    (RefreshFaa.atomicSwap fail s).1.acftref = s.acftref ∧
    (RefreshFaa.atomicSwap fail s).1.master.isSome ∧
    (RefreshFaa.atomicSwap fail s).1.acftref.isSome := by
  obtain ⟨ms, as_, oms, oas, ems, eas, zs⟩ := s
  simp only [Option.isSome_iff_exists] at hm ha hem hea
  obtain ⟨m, rfl⟩ := hm
  obtain ⟨a, rfl⟩ := ha
  obtain ⟨em, rfl⟩ := hem
  obtain ⟨ea, rfl⟩ := hea
  simp [RefreshFaa.atomicSwap, RefreshFaa.trySwap, RefreshFaa.rollback,
    f1, f2, f3, f4, f5]

/-- Witness for `atomicSwap_failed_second_rename` at the concrete C2
scenario. -/
theorem atomicSwap_failed_second_rename_witness :
    (RefreshFaa.atomicSwap RefreshFaa.failSecondOnly RefreshFaa.c2Start).2 = true ∧
    (RefreshFaa.atomicSwap RefreshFaa.failSecondOnly RefreshFaa.c2Start).1.master =
      RefreshFaa.c2Start.extractedMaster ∧
    (RefreshFaa.atomicSwap RefreshFaa.failSecondOnly RefreshFaa.c2Start).1.acftref =
      RefreshFaa.c2Start.acftref ∧
    (RefreshFaa.atomicSwap RefreshFaa.failSecondOnly RefreshFaa.c2Start).1.master.isSome ∧
    (RefreshFaa.atomicSwap RefreshFaa.failSecondOnly RefreshFaa.c2Start).1.acftref.isSome :=
  atomicSwap_failed_second_rename RefreshFaa.failSecondOnly RefreshFaa.c2Start
    (by decide) (by decide) (by decide) (by decide)
    (by decide) (by decide) (by decide) (by decide) (by decide)

/-! ## C7: the coalescer claim (modelled from the spec) -/

/-- C7: from a state with no live cache entry and no in-flight ticket for a
key, two concurrent `getOrCreate` callers for that key invoke the factory
exactly once — the first creates the single ticket, the second attaches to
that same ticket (so both observe the one operation's outcome, success or
failure alike, via that ticket) — and settling the operation removes the
ticket unconditionally. -/
theorem getOrCreate_coalesces {V E : Type} (s : Coalescer.State V) (key : String)
    (hc : s.cache key = none) (ht : s.ticket key = none) :
    let r1 := Coalescer.getOrCreateStart s key
    let r2 := Coalescer.getOrCreateStart r1.2 key
    r2.2.factoryCalls = s.factoryCalls + 1 ∧
    r1.1 = .created s.nextId ∧
    r2.1 = .attached s.nextId ∧
    (∀ (outcome : Except E V) (cacheable : V → Bool),
      (Coalescer.ticketSettle r2.2 key outcome cacheable).ticket key = none) := by
  simp [Coalescer.getOrCreateStart, Coalescer.ticketSettle, hc, ht]

/-- Witness for `getOrCreate_coalesces` at a concrete empty state. -/
theorem getOrCreate_coalesces_witness :
    let s : Coalescer.State Nat :=
      { cache := fun _ => none, ticket := fun _ => none, factoryCalls := 0, nextId := 0 }
    let r1 := Coalescer.getOrCreateStart s "N123"
    let r2 := Coalescer.getOrCreateStart r1.2 "N123"
    r2.2.factoryCalls = s.factoryCalls + 1 ∧
    r1.1 = .created s.nextId ∧
    r2.1 = .attached s.nextId ∧
    (∀ (outcome : Except Unit Nat) (cacheable : Nat → Bool),
      (Coalescer.ticketSettle r2.2 "N123" outcome cacheable).ticket "N123" = none) :=
  getOrCreate_coalesces _ "N123" rfl rfl

/-! ## C10: the public bypass claim -/

/-- `getPublicBypassResult` succeeds exactly on the demo pair. -/
theorem bypass_isSome_iff (fn d : String) :
    (ServerJs.getPublicBypassResult fn d).isSome ↔ (fn = "TT111" ∧ d = "2025-01-01") := by
  unfold ServerJs.getPublicBypassResult
  split_ifs with h1 h2 <;> simp_all

/-- A bypass response can only arise from the demo pair, with neither the
remote lookup nor the registry scan invoked. -/
theorem checkFlightHandler_bypass_inv (rawFn rawDate apiKey : String)
    (remote : ServerJs.FetchOutcome) (mf rf : CsvFile) (ny : Int)
    (fn d : String) (b : ServerJs.BypassResult)
    (h : (ServerJs.checkFlightHandler rawFn rawDate apiKey remote mf rf ny).response =
      .bypassSuccess fn d b) :
    (ServerJs.checkFlightHandler rawFn rawDate apiKey remote mf rf ny).remoteInvoked = false ∧
    (ServerJs.checkFlightHandler rawFn rawDate apiKey remote mf rf ny).registryScanned = false ∧
    ServerJs.normalizeFlightNumber (jsTrim rawFn) = "TT111" ∧
    ServerJs.normalizeDate (jsTrim rawDate) = some "2025-01-01" := by
  cases hval : ServerJs.validateCheckFlight rawFn rawDate with
  | false =>
    exfalso
    unfold ServerJs.checkFlightHandler at h
    simp only [hval, Bool.not_false, if_true] at h
    simp at h
  | true =>
  cases hdate : ServerJs.normalizeDate (jsTrim rawDate) with
  | none =>
    exfalso
    unfold ServerJs.checkFlightHandler at h
    simp only [hval, Bool.not_true, Bool.false_eq_true, if_false, hdate] at h
    simp at h
  | some date =>
  by_cases hfn0 : ServerJs.normalizeFlightNumber (jsTrim rawFn) = ""
  · exfalso
    unfold ServerJs.checkFlightHandler at h
    simp only [hval, Bool.not_true, Bool.false_eq_true, if_false, hdate, hfn0, if_true] at h
    simp at h
  cases hbp : ServerJs.getPublicBypassResult
      (jsToUpper (ServerJs.normalizeFlightNumber (jsTrim rawFn))) date with
  | some b' =>
    have hsome := bypass_isSome_iff
      (jsToUpper (ServerJs.normalizeFlightNumber (jsTrim rawFn))) date |>.mp (by simp [hbp])
    rw [jsToUpper_normalizeFlightNumber] at hsome
    unfold ServerJs.checkFlightHandler
    simp only [hval, Bool.not_true, Bool.false_eq_true, if_false, hdate, if_neg hfn0, hbp]
    refine ⟨trivial, trivial, hsome.1, ?_⟩
    rw [hsome.2]
  | none =>
    exfalso
    unfold ServerJs.checkFlightHandler at h
    simp only [hval, Bool.not_true, Bool.false_eq_true, if_false, hdate, if_neg hfn0, hbp] at h
    split at h <;> try simp at h
    all_goals (split at h <;> try simp at h)
    all_goals (split at h <;> try simp at h)
    all_goals (split at h <;> try simp at h)
    all_goals (split at h <;> try simp at h)

/-- C10: `getPublicBypassResult` returns the fixed demo aircraft exactly for
the pair `TT111` / `2025-01-01` and `none` for every other pair;
consequently the `/check-flight` handler produces a bypass (fixed success,
no remote call, no registry scan) exactly when the normalized inputs are
that single pair. -/
theorem getPublicBypassResult_only_demo_pair :
    (∀ fn d, (ServerJs.getPublicBypassResult fn d).isSome ↔
       (fn = "TT111" ∧ d = "2025-01-01")) ∧
    ServerJs.getPublicBypassResult "TT111" "2025-01-01" = some
      { registration := "TT-111", nNumber := none, year := "2015"
        manufacturer := "Incom Corporation", model := "T-65B X-wing Starfighter"
        age := 10 } ∧
    (∀ rawFn rawDate apiKey remote mf rf ny fn d b,
      (ServerJs.checkFlightHandler rawFn rawDate apiKey remote mf rf ny).response =
        .bypassSuccess fn d b →
      (ServerJs.checkFlightHandler rawFn rawDate apiKey remote mf rf ny).remoteInvoked =
        false ∧
      (ServerJs.checkFlightHandler rawFn rawDate apiKey remote mf rf ny).registryScanned =
        false ∧
      ServerJs.normalizeFlightNumber (jsTrim rawFn) = "TT111" ∧
      ServerJs.normalizeDate (jsTrim rawDate) = some "2025-01-01") ∧
    (∀ rawFn rawDate apiKey remote mf rf ny,
      ServerJs.validateCheckFlight rawFn rawDate = true →
      ServerJs.normalizeFlightNumber (jsTrim rawFn) = "TT111" →
      ServerJs.normalizeDate (jsTrim rawDate) = some "2025-01-01" →
      ServerJs.checkFlightHandler rawFn rawDate apiKey remote mf rf ny =
        { response := .bypassSuccess "TT111" "2025-01-01"
            { registration := "TT-111", nNumber := none, year := "2015"
              manufacturer := "Incom Corporation", model := "T-65B X-wing Starfighter"
              age := 10 }
          remoteInvoked := false, registryScanned := false }) := by
  refine ⟨bypass_isSome_iff, rfl, ?_, ?_⟩
  · intro rawFn rawDate apiKey remote mf rf ny fn d b h
    exact checkFlightHandler_bypass_inv rawFn rawDate apiKey remote mf rf ny fn d b h
  · intro rawFn rawDate apiKey remote mf rf ny hval hfn hdate
    unfold ServerJs.checkFlightHandler
    simp only [hval, Bool.not_true, Bool.false_eq_true, if_false, hdate, hfn]
    rw [if_neg (by decide : ¬("TT111" : String) = "")]
    rw [show jsToUpper "TT111" = "TT111" from by decide]
    rfl

/-- Witness for `getPublicBypassResult_only_demo_pair` at the concrete demo
request. -/
theorem getPublicBypassResult_only_demo_pair_witness :
    ServerJs.checkFlightHandler "TT111" "2025-01-01" "" .throws .enoent .enoent 2025 =
      { response := .bypassSuccess "TT111" "2025-01-01"
          { registration := "TT-111", nNumber := none, year := "2015"
            manufacturer := "Incom Corporation", model := "T-65B X-wing Starfighter"
            age := 10 }
        remoteInvoked := false, registryScanned := false } :=
  getPublicBypassResult_only_demo_pair.2.2.2 "TT111" "2025-01-01" "" .throws
    .enoent .enoent 2025 (by decide) (by decide) (by decide)

/-! ## C8: the remote-call failure taxonomy claim -/

/-- C8: `fetchTailNumber` yields a failure outcome (`ok := false`) for a
missing API key, a thrown fetch (network error or timeout abort), a non-OK
HTTP status, and an unparseable body; it yields a success outcome with a
null registration when the call succeeds but no registration is present; and
the `/check-flight` handler surfaces the failure outcome and the
null-registration outcome as the two distinct user-facing messages. -/
theorem fetchTailNumber_failure_taxonomy :
    (∀ outcome, ServerJs.fetchTailNumber "" outcome = { ok := false, registration := none }) ∧
    (∀ apiKey, ServerJs.fetchTailNumber apiKey .throws =
       { ok := false, registration := none }) ∧
    (∀ apiKey body, ServerJs.fetchTailNumber apiKey (.response false body) =
       { ok := false, registration := none }) ∧
    (∀ apiKey e, apiKey ≠ "" →
       ServerJs.fetchTailNumber apiKey (.response true (.error e)) =
         { ok := false, registration := none }) ∧
    (∀ apiKey data, apiKey ≠ "" →
       ServerJs.extractRegistrationFromFlightResponse data = none →
       ServerJs.fetchTailNumber apiKey (.response true (.ok data)) =
         { ok := true, registration := none }) ∧
    (∀ rawFn rawDate apiKey remote mf rf ny date,
      ServerJs.validateCheckFlight rawFn rawDate = true →
      ServerJs.normalizeDate (jsTrim rawDate) = some date →
      ServerJs.normalizeFlightNumber (jsTrim rawFn) ≠ "" →
      ServerJs.getPublicBypassResult
        (jsToUpper (ServerJs.normalizeFlightNumber (jsTrim rawFn))) date = none →
      apiKey ≠ "" →
      (((ServerJs.fetchTailNumber apiKey remote).ok = false →
        (ServerJs.checkFlightHandler rawFn rawDate apiKey remote mf rf ny).response =
          .failJson "Flight details currently unavailable.") ∧
       ((ServerJs.fetchTailNumber apiKey remote).ok = true →
        (ServerJs.fetchTailNumber apiKey remote).registration = none →
        (ServerJs.checkFlightHandler rawFn rawDate apiKey remote mf rf ny).response =
          .failJson "Airline hasn't published an assigned aircraft yet."))) ∧
    ("Flight details currently unavailable." ≠
      "Airline hasn't published an assigned aircraft yet.") := by
  refine ⟨?_, ?_, ?_, ?_, ?_, ?_, by decide⟩
  · intro outcome
    simp [ServerJs.fetchTailNumber]
  · intro apiKey
    by_cases h : apiKey = "" <;> simp [ServerJs.fetchTailNumber, h]
  · intro apiKey body
    by_cases h : apiKey = "" <;> simp [ServerJs.fetchTailNumber, h]
  · intro apiKey e h
    simp [ServerJs.fetchTailNumber, h]
  · intro apiKey data h hex
    simp [ServerJs.fetchTailNumber, h, hex]
  · intro rawFn rawDate apiKey remote mf rf ny date hval hdate hfn0 hbp hkey
    unfold ServerJs.checkFlightHandler
    simp only [hval, Bool.not_true, Bool.false_eq_true, if_false, hdate,
      if_neg hfn0, hbp, if_neg hkey]
    constructor
    · intro hok
      simp only [hok, Bool.not_false, if_true]
    · intro hok hreg
      simp only [hok, Bool.not_true, Bool.false_eq_true, if_false, hreg]

/-- Witness for `fetchTailNumber_failure_taxonomy`: the handler surfaces a
thrown fetch as "unavailable" and a successful call without a registration as
"not yet published". -/
theorem fetchTailNumber_failure_taxonomy_witness :
    (ServerJs.checkFlightHandler "DL47" "2025-01-02" "k" .throws .enoent .enoent
        2025).response = .failJson "Flight details currently unavailable." ∧
    (ServerJs.checkFlightHandler "DL47" "2025-01-02" "k"
        (.response true (.ok [some { reg := none, registration := none }]))
        .enoent .enoent 2025).response =
      .failJson "Airline hasn't published an assigned aircraft yet." := by
  have T1 := (fetchTailNumber_failure_taxonomy.2.2.2.2.2.1 "DL47" "2025-01-02" "k"
    .throws .enoent .enoent 2025 "2025-01-02" (by decide) (by decide) (by decide)
    (by decide) (by decide)).1 (by decide)
  have T2 := (fetchTailNumber_failure_taxonomy.2.2.2.2.2.1 "DL47" "2025-01-02" "k"
    (.response true (.ok [some { reg := none, registration := none }])) .enoent .enoent
    2025 "2025-01-02" (by decide) (by decide) (by decide) (by decide) (by decide)).2
    (by decide) (by decide)
  exact ⟨T1, T2⟩


/-! ## C4: the join-precedence claim -/

/-- C4 (counterexample): the primary record for `123AB` carries join-key
code `CODE1`, which is present in the reference file, yet the resolver's
manufacturer/model come from the inline kit fields (`KITM`/`KITMOD`), not
from the matching reference record — because that reference record's
manufacturer and model are both empty. -/
theorem resolveAircraftSpecs_inline_used_despite_reference :
    ServerJs.resolveAircraftSpecsByNNumber "123AB" Fixtures.kitMasterFile
        Fixtures.emptyRefFile =
      .ok (some { nNumber := "123AB", year := "2015", mfrMdlCode := "CODE1"
                  kitManufacturer := "KITM", kitModel := "KITMOD"
                  manufacturer := "KITM", model := "KITMOD"
                  aircraftType := some "KITM KITMOD", typeAcft := none }) ∧
    ServerJs.findAircraftInAcftRef "CODE1" Fixtures.emptyRefFile =
      .ok (some { mfrMdlCode := "CODE1", manufacturer := "", model := ""
                  typeAcft := "" }) ∧
    ("KITM" : String) ≠ "" ∧ jsTrim "CODE1" ≠ "" :=
  ⟨rfl, rfl, by decide, by decide⟩

/-- C4 (amended): when the primary record's join-key code is present in the
reference file and the reference record's manufacturer or model is non-empty
after trimming, the resolver takes manufacturer and model from the reference
record, never from the inline kit fields; the inline kit fields are used
when the primary carries no join-key code, when the reference lookup yields
nothing, and also when the reference record's manufacturer and model are
both empty. -/
theorem resolveAircraftSpecs_join_precedence (n : String) (mf rf : CsvFile)
    (a : ServerJs.MasterRecord)
    (hm : ServerJs.findAircraftInMasterCsv n mf = .ok (some a)) :
    (∀ r, jsTrim a.mfrMdlCode ≠ "" →
      ServerJs.findAircraftInAcftRef a.mfrMdlCode rf = .ok (some r) →
      ¬(jsTrim r.manufacturer = "" ∧ jsTrim r.model = "") →
      ∃ res, ServerJs.resolveAircraftSpecsByNNumber n mf rf = .ok (some res) ∧
        res.manufacturer = jsTrim r.manufacturer ∧ res.model = jsTrim r.model) ∧
    (jsTrim a.mfrMdlCode = "" →
      ∃ res, ServerJs.resolveAircraftSpecsByNNumber n mf rf = .ok (some res) ∧
        res.manufacturer = jsTrim a.kitManufacturer ∧
        res.model = jsTrim a.kitModel) ∧
    (jsTrim a.mfrMdlCode ≠ "" →
      ServerJs.findAircraftInAcftRef a.mfrMdlCode rf = .ok none →
      ∃ res, ServerJs.resolveAircraftSpecsByNNumber n mf rf = .ok (some res) ∧
        res.manufacturer = jsTrim a.kitManufacturer ∧
        res.model = jsTrim a.kitModel) ∧
    (∀ r, jsTrim a.mfrMdlCode ≠ "" →
      ServerJs.findAircraftInAcftRef a.mfrMdlCode rf = .ok (some r) →
      jsTrim r.manufacturer = "" → jsTrim r.model = "" →
      ∃ res, ServerJs.resolveAircraftSpecsByNNumber n mf rf = .ok (some res) ∧
        res.manufacturer = jsTrim a.kitManufacturer ∧
        res.model = jsTrim a.kitModel) := by
  refine ⟨?_, ?_, ?_, ?_⟩
  · intro r hcode hr hnz
    simp only [ServerJs.resolveAircraftSpecsByNNumber, hm, bind, Except.bind, hcode,
      if_pos hcode, hr]
    by_cases h1 : jsTrim r.manufacturer = "" <;> by_cases h2 : jsTrim r.model = ""
    · exact absurd ⟨h1, h2⟩ hnz
    all_goals refine ⟨_, rfl, ?_, ?_⟩ <;> simp [h1, h2]
  · intro hcode
    simp only [ServerJs.resolveAircraftSpecsByNNumber, hm, bind, Except.bind, hcode,
      if_neg (by simp [hcode] : ¬jsTrim a.mfrMdlCode ≠ "")]
    exact ⟨_, rfl, by simp, by simp⟩
  · intro hcode hr
    simp only [ServerJs.resolveAircraftSpecsByNNumber, hm, bind, Except.bind,
      if_pos hcode, hr]
    exact ⟨_, rfl, by simp, by simp⟩
  · intro r hcode hr h1 h2
    simp only [ServerJs.resolveAircraftSpecsByNNumber, hm, bind, Except.bind,
      if_pos hcode, hr]
    exact ⟨_, rfl, by simp [h1, h2], by simp [h1, h2]⟩

/-- Witness for `resolveAircraftSpecs_join_precedence`: with a reference
record carrying `BOEING` / `737`, the resolver uses the reference data even
though inline kit fields are present. -/
theorem resolveAircraftSpecs_join_precedence_witness :
    ∃ res, ServerJs.resolveAircraftSpecsByNNumber "123AB" Fixtures.kitMasterFile
        Fixtures.boeingRefFile = .ok (some res) ∧
      res.manufacturer = jsTrim "BOEING" ∧ res.model = jsTrim "737" :=
  (resolveAircraftSpecs_join_precedence "123AB" Fixtures.kitMasterFile
      Fixtures.boeingRefFile
      { nNumber := "123AB", year := "2015", mfrMdlCode := "CODE1"
        kitManufacturer := "KITM", kitModel := "KITMOD" } rfl).1
    { mfrMdlCode := "CODE1", manufacturer := "BOEING", model := "737", typeAcft := "4" }
    (by decide) rfl (by decide)


/-! ## C6: the header-detection claim -/

/-- `part_006`'s lookup on a delivered-content stream, unfolded. -/
theorem part006_findAircraftInMasterCsv_content (q : String) (lines : List String)
    (e : Bool) :
    Part006.findAircraftInMasterCsv q (.content lines e) =
      (if jsToUpper (jsTrim q) = "" then .ok none
       else
         match Part006.scanMaster (jsToUpper (jsTrim q)) lines none with
         | some r => .ok (some r)
         | none => if e then .error .ioError else .ok none) := rfl

/-- C6 (counterexample): the exported `server.js` lookup consumes the first
line unconditionally — never as a data row, whether or not a header is
recognizable in it — so a record whose identifier appears on the first line
of a headerless file is NOT found. -/
theorem serverjs_first_line_always_consumed :
    normalizeNNumberField (readFirstCsvField "123AB,S,C1,X,2015") = "123AB" ∧
    jsToUpper (jsTrim "123AB") = "123AB" ∧
    ServerJs.findAircraftInMasterCsv "123AB" Fixtures.headerlessFile = .ok none :=
  ⟨by decide, by decide, rfl⟩

/-- C6 (amended): in the `part_006` variant the first non-empty line is
consumed as a header exactly when a header is recognized in it; otherwise it
is processed as a data row under the fallback positional schema, so a record
whose identifier appears on the first line of a headerless file is still
found.  The exported `server.js` variant instead always consumes the first
line (see the counterexample). -/
theorem part006_first_line_header_detection :
    (∀ (needle l : String) (rest : List String) (s : Part006.MasterCsvSchema),
      l ≠ "" →
      Part006.inferMasterCsvSchemaFromHeaderLine l = some s →
      Part006.scanMaster needle (l :: rest) none =
        Part006.scanMaster needle rest (some s)) ∧
    (∀ (q l : String) (rest : List String) (e : Bool), l ≠ "" →
      Part006.inferMasterCsvSchemaFromHeaderLine l = none →
      normalizeNNumberField (readFirstCsvField l) = jsToUpper (jsTrim q) →
      jsToUpper (jsTrim q) ≠ "" →
      ∃ r, Part006.findAircraftInMasterCsv q (.content (l :: rest) e) =
        .ok (some r)) := by
  constructor
  · intro needle l rest s hne hinf
    simp only [Part006.scanMaster, if_neg hne, hinf]
  · intro q l rest e hne hinf hmatch hq
    rw [part006_findAircraftInMasterCsv_content, if_neg hq]
    have hproc : Part006.processLine (jsToUpper (jsTrim q)) l Part006.fallbackSchema =
        some (Part006.recordOfFields (jsToUpper (jsTrim q)) Part006.fallbackSchema
          (parseCsvFieldsAt l (Part006.wantedDetailsOf Part006.fallbackSchema))) := by
      simp only [Part006.processLine]
      rw [if_neg (by decide : ¬Part006.fallbackSchema.nNumberIdx ≠ 0)]
      rw [hmatch, if_neg (by simp)]
    have hscan : Part006.scanMaster (jsToUpper (jsTrim q)) (l :: rest) none =
        some (Part006.recordOfFields (jsToUpper (jsTrim q)) Part006.fallbackSchema
          (parseCsvFieldsAt l (Part006.wantedDetailsOf Part006.fallbackSchema))) := by
      simp only [Part006.scanMaster, if_neg hne, hinf, hproc]
    rw [hscan]
    exact ⟨_, rfl⟩

/-- Witness for `part006_first_line_header_detection`: the same headerless
single-line file on which the exported variant fails is resolved by the
`part_006` variant. -/
theorem part006_first_line_header_detection_witness :
    ∃ r, Part006.findAircraftInMasterCsv "123AB"
      (.content ("123AB,S,C1,X,2015" :: []) false) = .ok (some r) :=
  part006_first_line_header_detection.2 "123AB" "123AB,S,C1,X,2015" [] false
    (by decide) (by decide) (by decide) (by decide)


/-! ## C5: the selective-tokenizer refinement claim -/

/-- Invariant of the selective tokenizer's loop: every pair it emits lies at
a wanted column index and carries exactly the field the full tokenizer's
loop produces at that offset.  `trueFld` is the full tokenizer's current
field; the selective loop's field is `some trueFld` exactly when the current
column is wanted. -/
theorem fieldsAtAux_spec (w : WantedCsvIndices) (cs : List Char) (idx : Nat) (inQ : Bool)
    (fld : Option (List Char)) :
    ∀ (trueFld : List Char), fld = (if w.indices.contains idx then some trueFld else none) →
    ∀ i v, (i, v) ∈ parseCsvFieldsAtAux w cs idx inQ fld →
      w.indices.contains i = true ∧
      ∃ j, i = idx + j ∧ (parseCsvLineAux cs inQ trueFld)[j]? = some v := by
  induction cs, idx, inQ, fld using parseCsvFieldsAtAux.induct w <;>
    intro trueFld hfld i v hmem
  case case1 idx x f =>
    by_cases hc : w.indices.contains idx = true
    · rw [if_pos hc] at hfld
      obtain rfl : f = trueFld := by injection hfld
      simp only [parseCsvFieldsAtAux, List.mem_singleton, Prod.mk.injEq] at hmem
      obtain ⟨rfl, rfl⟩ := hmem
      exact ⟨hc, 0, by simp, by simp [parseCsvLineAux]⟩
    · rw [if_neg hc] at hfld
      exact absurd hfld (by simp)
  case case2 idx x =>
    simp [parseCsvFieldsAtAux] at hmem
  case case3 rest idx field ih =>
    simp only [parseCsvFieldsAtAux] at hmem
    have hfld2 : Option.map (fun x => x ++ ['"']) field =
        if w.indices.contains idx = true then some (trueFld ++ ['"']) else none := by
      rw [hfld]
      split <;> rfl
    obtain ⟨hci, j, rfl, hj⟩ := ih (trueFld ++ ['"']) hfld2 i v hmem
    refine ⟨hci, j, rfl, ?_⟩
    simpa [parseCsvLineAux] using hj
  case case4 rest idx field hguard ih =>
    have hredF : parseCsvFieldsAtAux w ('"' :: rest) idx true field =
        parseCsvFieldsAtAux w rest idx false field := by
      cases rest with
      | nil => simp [parseCsvFieldsAtAux]
      | cons r0 rt =>
        have h0 : ¬r0 = '"' := fun h => hguard rt (by rw [h])
        simp [parseCsvFieldsAtAux, h0]
    have hredL : parseCsvLineAux ('"' :: rest) true trueFld =
        parseCsvLineAux rest false trueFld := by
      cases rest with
      | nil => simp [parseCsvLineAux]
      | cons r0 rt =>
        have h0 : ¬r0 = '"' := fun h => hguard rt (by rw [h])
        simp [parseCsvLineAux, h0]
    rw [hredF] at hmem
    obtain ⟨hci, j, rfl, hj⟩ := ih trueFld hfld i v hmem
    exact ⟨hci, j, rfl, by rw [hredL]; exact hj⟩
  case case5 c rest idx field hguard hc ih =>
    have h0 : ¬c = '"' := hc
    simp only [parseCsvFieldsAtAux, h0, if_false] at hmem
    have hfld2 : Option.map (fun x => x ++ [c]) field =
        if w.indices.contains idx = true then some (trueFld ++ [c]) else none := by
      rw [hfld]
      split <;> rfl
    obtain ⟨hci, j, rfl, hj⟩ := ih (trueFld ++ [c]) hfld2 i v hmem
    refine ⟨hci, j, rfl, ?_⟩
    simpa [parseCsvLineAux, h0] using hj
  case case6 rest idx field ih =>
    simp only [parseCsvFieldsAtAux] at hmem
    obtain ⟨hci, j, rfl, hj⟩ := ih trueFld hfld i v hmem
    exact ⟨hci, j, rfl, by simpa [parseCsvLineAux] using hj⟩
  case case7 rest idx field ih =>
    simp only [parseCsvFieldsAtAux] at hmem
    rcases List.mem_append.mp hmem with hL | hR
    · rw [hfld] at hL
      by_cases hc : w.indices.contains idx = true
      · rw [if_pos hc] at hL
        simp only [List.mem_singleton, Prod.mk.injEq] at hL
        obtain ⟨rfl, rfl⟩ := hL
        exact ⟨hc, 0, by simp, by simp [parseCsvLineAux]⟩
      · rw [if_neg hc] at hL
        simp at hL
    · by_cases hmax : (idx : Int) ≥ w.max
      · rw [if_pos hmax] at hR
        simp at hR
      · rw [if_neg hmax] at hR
        obtain ⟨hci, j, hij, hj⟩ := ih [] rfl i v hR
        refine ⟨hci, j + 1, by omega, ?_⟩
        simp only [parseCsvLineAux, List.getElem?_cons_succ]
        exact hj
  case case8 c rest idx field hq hcm ih =>
    have h0 : ¬c = '"' := hq
    have h1 : ¬c = ',' := hcm
    simp only [parseCsvFieldsAtAux, h0, h1, if_false] at hmem
    have hfld2 : Option.map (fun x => x ++ [c]) field =
        if w.indices.contains idx = true then some (trueFld ++ [c]) else none := by
      rw [hfld]
      split <;> rfl
    obtain ⟨hci, j, rfl, hj⟩ := ih (trueFld ++ [c]) hfld2 i v hmem
    refine ⟨hci, j, rfl, ?_⟩
    simpa [parseCsvLineAux, h0, h1] using hj

/-- In a `≤`-sorted list every element is at most the last one (`-1` for the
empty list), matching `makeWantedCsvIndices`'s `max` computation. -/
theorem sorted_le_getLast : ∀ (l : List Nat), l.Sorted (· ≤ ·) → ∀ x ∈ l,
    (x : Int) ≤ (match l.getLast? with | some n => (n : Int) | none => -1) := by
  intro l
  induction l with
  | nil => intro _ x hx; simp at hx
  | cons a t ih =>
    intro hs x hx
    cases t with
    | nil =>
      simp only [List.mem_singleton] at hx
      subst hx
      simp
    | cons b t2 =>
      have hs' : (b :: t2).Sorted (· ≤ ·) := hs.of_cons
      rw [List.getLast?_cons_cons]
      rcases List.mem_cons.mp hx with rfl | hx2
      · have hb : x ≤ b := (List.sorted_cons.mp hs).1 b (List.mem_cons_self _ _)
        calc (x : Int) ≤ (b : Int) := by exact_mod_cast hb
          _ ≤ _ := ih hs' b (List.mem_cons_self _ _)
      · exact ih hs' x hx2

/-- Every wanted index is at most `wanted.max`. -/
theorem mem_makeWanted_le_max (idxs : List Nat) (i : Nat)
    (h : i ∈ (makeWantedCsvIndices idxs).indices) :
    (i : Int) ≤ (makeWantedCsvIndices idxs).max := by
  have hsorted : ((idxs.dedup).insertionSort (· ≤ ·)).Sorted (· ≤ ·) :=
    List.sorted_insertionSort (· ≤ ·) _
  exact sorted_le_getLast _ hsorted i h

/-- The wanted-index set is exactly the set of requested indices. -/
theorem mem_makeWanted_iff (idxs : List Nat) (i : Nat) :
    i ∈ (makeWantedCsvIndices idxs).indices ↔ i ∈ idxs := by
  unfold makeWantedCsvIndices
  simp only []
  rw [List.Perm.mem_iff (List.perm_insertionSort _ _), List.mem_dedup]

/-- C5: whenever the selective tokenizer emits a value at an index, that
value is exactly the field the full tokenizer `parseCsvLine` produces at the
same index — identical quoted-field and doubled-quote handling — and every
emitted index is a wanted index, hence no greater than the highest wanted
index. -/
theorem parseCsvFieldsAt_refines_parseCsvLine (line : String) (idxs : List Nat) (i : Nat) (v : String)
    (h : (i, v) ∈ parseCsvFieldsAt line (makeWantedCsvIndices idxs)) :
    (parseCsvLine line)[i]? = some v ∧ i ∈ idxs ∧
    (i : Int) ≤ (makeWantedCsvIndices idxs).max := by
  unfold parseCsvFieldsAt at h
  cases hd : line.data with
  | nil => rw [hd] at h; simp at h
  | cons c cs =>
    rw [hd] at h
    simp only [List.mem_map] at h
    obtain ⟨⟨i', vl⟩, hmem, hpair⟩ := h
    obtain ⟨rfl, rfl⟩ : i' = i ∧ (⟨vl⟩ : String) = v := by
      constructor
      · exact congrArg Prod.fst hpair
      · exact congrArg Prod.snd hpair
    obtain ⟨hci, j, hij, hj⟩ :=
      fieldsAtAux_spec (makeWantedCsvIndices idxs) (c :: cs) 0 false _ [] rfl i' vl hmem
    have hji : i' = j := by omega
    subst hji
    have hmem2 : i' ∈ (makeWantedCsvIndices idxs).indices := by
      simpa using hci
    refine ⟨?_, (mem_makeWanted_iff idxs i').mp hmem2, mem_makeWanted_le_max idxs i' hmem2⟩
    unfold parseCsvLine
    rw [hd, List.getElem?_map, hj]
    rfl


/-- Witness for `parseCsvFieldsAt_refines_parseCsvLine` on a quoted line
with a doubled quote, selecting columns 0 and 2. -/
theorem parseCsvFieldsAt_refines_parseCsvLine_witness :
    (parseCsvLine "a,\"b,c\",\"d\"\"e\",f")[2]? = some "d\"e" ∧
    2 ∈ [2, 0] ∧
    ((2 : Nat) : Int) ≤ (makeWantedCsvIndices [2, 0]).max :=
  parseCsvFieldsAt_refines_parseCsvLine "a,\"b,c\",\"d\"\"e\",f" [2, 0] 2 "d\"e"
    (by decide)
